import Mathlib

/-
Verification development for the MCP prompt server of this repository
(package internal/mcp: prompts.go, the JSON-RPC types, and the HTTP
transport).  The Go code is shallowly embedded: Go maps become
association lists, the mutable Server struct becomes explicit state
passing, fallible operations return Except, and the external JSON
library (encoding/json) is modelled on exactly the target types the
code decodes into.
-/

namespace MCP

/-- Model of a decoded JSON value (what Go json.Unmarshal stores in an
interface field).  JSON numbers are modelled as integers, which is
sufficient here because the server never inspects numeric values.  A
JSON null at the top level of the id field decodes to a nil Go
interface, so an absent-or-null id is represented as none of
Option JsonValue. -/
inductive JsonValue where
  | null
  | bool (b : Bool)
  | num (n : Int)
  | str (s : String)
  | arr (elems : List JsonValue)
  | obj (fields : List (String × JsonValue))

/-- JSONRPCRequest from the source: jsonrpc tag, optional id, method,
optional params.  The id and params fields are interface values in Go;
absent fields decode to nil, modelled as none. -/
structure JSONRPCRequest where
  jsonrpc : String
  id : Option JsonValue
  method : String
  params : Option JsonValue

/-- JSONRPCError from the source: code, message, optional data. -/
structure JSONRPCError where
  code : Int
  message : String
  data : Option JsonValue

/-- PromptArgument from the source. -/
structure PromptArgument where
  name : String
  description : String
  required : Bool

/-- Prompt from the source. -/
structure Prompt where
  name : String
  description : String
  arguments : List PromptArgument

/-- MessageContent from the source. -/
structure MessageContent where
  type : String
  text : String

/-- PromptMessage from the source. -/
structure PromptMessage where
  role : String
  content : MessageContent

/-- GetPromptResult from the source. -/
structure GetPromptResult where
  description : String
  messages : List PromptMessage

/-- ListPromptsResult from the source (nextCursor is never set by the
code and is omitted). -/
structure ListPromptsResult where
  prompts : List Prompt

/-- RootsCapability from the source. -/
structure RootsCapability where
  listChanged : Bool

/-- SamplingCapability from the source (empty struct). -/
structure SamplingCapability where

/-- Capabilities from the source (client side). -/
structure Capabilities where
  roots : Option RootsCapability
  sampling : Option SamplingCapability

/-- PromptsCapability from the source. -/
structure PromptsCapability where
  listChanged : Bool

/-- ToolsCapability from the source. -/
structure ToolsCapability where
  listChanged : Bool

/-- ServerCapabilities from the source. -/
structure ServerCapabilities where
  prompts : Option PromptsCapability
  tools : Option ToolsCapability

/-- ClientInfo from the source. -/
structure ClientInfo where
  name : String
  version : String

/-- ServerInfo from the source. -/
structure ServerInfo where
  name : String
  version : String

/-- InitializeParams from the source. -/
structure InitializeParams where
  protocolVersion : String
  capabilities : Capabilities
  clientInfo : ClientInfo

/-- InitializeResult from the source. -/
structure InitializeResult where
  protocolVersion : String
  capabilities : ServerCapabilities
  serverInfo : ServerInfo

/-- GetPromptParams from the source.  The Go arguments field is
map of string to string; modelled as an association list. -/
structure GetPromptParams where
  name : String
  arguments : List (String × String)

/-- The result payload a handler puts into a response (Go stores it in
an interface field; each handler stores one of these three types). -/
inductive RPCResult where
  | initRes (r : InitializeResult)
  | promptsList (r : ListPromptsResult)
  | promptsGet (r : GetPromptResult)

/-- JSONRPCResponse from the source.  Exactly one of result and error
is set by every constructor site in the code. -/
structure JSONRPCResponse where
  jsonrpc : String
  id : Option JsonValue
  result : Option RPCResult
  error : Option JSONRPCError

/- Model of Go encoding/json unmarshalling, on the target types the
dispatcher decodes params into.  Absent fields and JSON null leave the
zero value; a present field of the wrong type is a decode error;
unknown fields are ignored. -/

/-- Decode a JSON object field into a Go string field. -/
def decodeStringField : Option JsonValue → Except Unit String
  | none => .ok ("")
  | some .null => .ok ("")
  | some (.str s) => .ok s
  | _ => .error ()

/-- Decode a JSON object field into a Go bool field. -/
def decodeBoolField : Option JsonValue → Except Unit Bool
  | none => .ok false
  | some .null => .ok false
  | some (.bool b) => .ok b
  | _ => .error ()

/-- Decode one value of a map of string to string. -/
def decodeStringEntry : JsonValue → Except Unit String
  | .null => .ok ("")
  | .str s => .ok s
  | _ => .error ()

/-- Decode a JSON object field into a Go map of string to string. -/
def decodeStringMapField : Option JsonValue → Except Unit (List (String × String))
  | none => .ok []
  | some .null => .ok []
  | some (.obj fields) =>
      fields.foldr
        (fun kv acc => do
          let v ← decodeStringEntry kv.2
          let rest ← acc
          .ok ((kv.1, v) :: rest))
        (.ok [])
  | _ => .error ()

/-- Decode a JSON value into GetPromptParams. -/
def decodeGetPromptParams : JsonValue → Except Unit GetPromptParams
  | .null => .ok { name := (""), arguments := [] }
  | .obj fields => do
      let n ← decodeStringField (fields.lookup ("name"))
      let args ← decodeStringMapField (fields.lookup ("arguments"))
      .ok { name := n, arguments := args }
  | _ => .error ()

/-- Decode a JSON object field into the client Capabilities struct. -/
def decodeCapabilitiesField : Option JsonValue → Except Unit Capabilities
  | none => .ok { roots := none, sampling := none }
  | some .null => .ok { roots := none, sampling := none }
  | some (.obj fields) => do
      let r ← match fields.lookup ("roots") with
        | none => pure (none : Option RootsCapability)
        | some .null => pure none
        | some (.obj rf) => do
            let lc ← decodeBoolField (rf.lookup ("listChanged"))
            pure (some { listChanged := lc })
        | some _ => .error ()
      let sm ← match fields.lookup ("sampling") with
        | none => pure (none : Option SamplingCapability)
        | some .null => pure none
        | some (.obj _) => pure (some {})
        | some _ => .error ()
      .ok { roots := r, sampling := sm }
  | _ => .error ()

/-- Decode a JSON object field into ClientInfo. -/
def decodeClientInfoField : Option JsonValue → Except Unit ClientInfo
  | none => .ok { name := (""), version := ("") }
  | some .null => .ok { name := (""), version := ("") }
  | some (.obj fields) => do
      let n ← decodeStringField (fields.lookup ("name"))
      let v ← decodeStringField (fields.lookup ("version"))
      .ok { name := n, version := v }
  | _ => .error ()

/-- Decode a JSON value into InitializeParams. -/
def decodeInitializeParams : JsonValue → Except Unit InitializeParams
  | .null => .ok { protocolVersion := (""),
                   capabilities := { roots := none, sampling := none },
                   clientInfo := { name := (""), version := ("") } }
  | .obj fields => do
      let pv ← decodeStringField (fields.lookup ("protocolVersion"))
      let caps ← decodeCapabilitiesField (fields.lookup ("capabilities"))
      let ci ← decodeClientInfoField (fields.lookup ("clientInfo"))
      .ok { protocolVersion := pv, capabilities := caps, clientInfo := ci }
  | _ => .error ()

/-- The Go dispatcher only decodes params when request.Params is not
nil; an absent params field leaves the zero value of the target
struct.  Wrapper mirroring that guard for GetPromptParams. -/
def decodeGetPromptParamsOpt : Option JsonValue → Except Unit GetPromptParams
  | none => .ok { name := (""), arguments := [] }
  | some v => decodeGetPromptParams v

/-- Wrapper mirroring the nil-params guard for InitializeParams. -/
def decodeInitializeParamsOpt : Option JsonValue → Except Unit InitializeParams
  | none => .ok { protocolVersion := (""),
                  capabilities := { roots := none, sampling := none },
                  clientInfo := { name := (""), version := ("") } }
  | some v => decodeInitializeParams v

/-- PromptHandler from the source: a function from an argument map to
a result or an error.  The Go context argument is dropped: no handler
or dispatcher code inspected by this development reads it. -/
def PromptHandler : Type := List (String × String) → Except String GetPromptResult

/-- PromptRegistry from the source: two maps keyed by prompt name,
modelled as association lists written by Register alone. -/
structure PromptRegistry where
  prompts : List (String × Prompt)
  handlers : List (String × PromptHandler)

/-- NewPromptRegistry from the source. -/
def newPromptRegistry : PromptRegistry :=
  { prompts := [], handlers := [] }

/-- Overwriting insertion into an association list (Go map assignment:
last write for a given key wins). -/
def setAssoc {α : Type} (l : List (String × α)) (k : String) (v : α) :
    List (String × α) :=
  match l with
  | [] => [(k, v)]
  | (k0, v0) :: rest =>
      if k0 = k then (k, v) :: rest else (k0, v0) :: setAssoc rest k v

/-- PromptRegistry.Register from the source. -/
def PromptRegistry.register (r : PromptRegistry) (p : Prompt) (h : PromptHandler) :
    PromptRegistry :=
  { prompts := setAssoc r.prompts p.name p,
    handlers := setAssoc r.handlers p.name h }

/-- PromptRegistry.List from the source (Go map iteration order is
unspecified; the model returns insertion order). -/
def PromptRegistry.list (r : PromptRegistry) : List Prompt :=
  r.prompts.map (fun kv => kv.2)

/-- PromptRegistry.Execute from the source: look up the handler, fail
with a not-found error naming the prompt when absent, otherwise run
the handler and propagate its outcome unchanged. -/
def PromptRegistry.execute (r : PromptRegistry) (name : String)
    (args : List (String × String)) : Except String GetPromptResult :=
  match r.handlers.lookup name with
  | none => .error (("prompt not found: ") ++ name)
  | some h => h args

/-- Server from the source: configured name and version, the registry,
the initialized flag, and the fixed protocol version string. -/
structure Server where
  name : String
  version : String
  promptRegistry : PromptRegistry
  initialized : Bool
  protocolVersion : String

/-- NewServer from the source.  The initialized field is the Go zero
value false. -/
def newServer (name version : String) : Server :=
  { name := name, version := version,
    promptRegistry := newPromptRegistry,
    initialized := false,
    protocolVersion := ("2025-03-26") }

/-- Server.RegisterPrompt from the source. -/
def Server.registerPrompt (s : Server) (p : Prompt) (h : PromptHandler) : Server :=
  { s with promptRegistry := s.promptRegistry.register p h }

/-- Server.errorResponse from the source. -/
def Server.errorResponse (_s : Server) (id : Option JsonValue) (code : Int)
    (message : String) (data : Option JsonValue) : JSONRPCResponse :=
  { jsonrpc := ("2.0"), id := id, result := none,
    error := some { code := code, message := message, data := data } }

/-- Server.handleInitialize from the source: decode params when
present (malformed params give -32602), then answer with the fixed
protocol version, the prompts capability and the configured server
info.  The server state is not touched. -/
def Server.handleInitialize (s : Server) (req : JSONRPCRequest) : JSONRPCResponse :=
  match decodeInitializeParamsOpt req.params with
  | .error _ => s.errorResponse req.id (-32602) ("Invalid params") none
  | .ok _ =>
      { jsonrpc := ("2.0"), id := req.id,
        result := some (RPCResult.initRes
          { protocolVersion := s.protocolVersion,
            capabilities :=
              { prompts := some { listChanged := false }, tools := none },
            serverInfo := { name := s.name, version := s.version } }),
        error := none }

/-- Server.handlePromptsList from the source. -/
def Server.handlePromptsList (s : Server) (req : JSONRPCRequest) : JSONRPCResponse :=
  { jsonrpc := ("2.0"), id := req.id,
    result := some (RPCResult.promptsList { prompts := s.promptRegistry.list }),
    error := none }

/-- Server.handlePromptsGet from the source: decode params when
present (malformed params give -32602, absent params leave the zero
GetPromptParams), run Registry.Execute, and turn a failure into a
-32603 error whose message is the failure text and whose data is nil. -/
def Server.handlePromptsGet (s : Server) (req : JSONRPCRequest) : JSONRPCResponse :=
  match decodeGetPromptParamsOpt req.params with
  | .error _ => s.errorResponse req.id (-32602) ("Invalid params") none
  | .ok params =>
      match s.promptRegistry.execute params.name params.arguments with
      | .error e => s.errorResponse req.id (-32603) e none
      | .ok result =>
          { jsonrpc := ("2.0"), id := req.id,
            result := some (RPCResult.promptsGet result), error := none }

/-- Server.handleRequest from the source: the switch over the method
name.  The initialized notification mutates the flag and produces no
response; prompts methods are gated on the flag with -32002; an
unknown method gives -32601.  The mutation of the Go receiver is
modelled by returning the new server alongside the optional
response. -/
def Server.handleRequest (s : Server) (req : JSONRPCRequest) :
    Server × Option JSONRPCResponse :=
  if req.method = ("initialize") then
    (s, some (s.handleInitialize req))
  else if req.method = ("initialized") then
    ({ s with initialized := true }, none)
  else if req.method = ("prompts/list") then
    if !s.initialized then
      (s, some (s.errorResponse req.id (-32002) ("Server not initialized") none))
    else
      (s, some (s.handlePromptsList req))
  else if req.method = ("prompts/get") then
    if !s.initialized then
      (s, some (s.errorResponse req.id (-32002) ("Server not initialized") none))
    else
      (s, some (s.handlePromptsGet req))
  else
    (s, some (s.errorResponse req.id (-32601) ("Method not found") none))

/-- Sequential dispatch of a list of messages, threading the server
state; the state part of running the two transports. -/
def Server.dispatchAll (s : Server) : List JSONRPCRequest → Server
  | [] => s
  | req :: rest => ((s.handleRequest req).1).dispatchAll rest

/- The stdio line transport (Server.Run from the source).  The scanner
and the JSON parser are external collaborators: the input stream is
modelled as a list of lines, each already classified by the parser as
empty, unparseable, or a decoded message, followed by how the stream
ends (end of input, or a read error with its message).  The
cancellation context is modelled by the iteration index at which the
Done channel becomes ready, if ever; the Go select with a default
branch checks it once at the top of every loop iteration. -/

/-- One line read by the scanner, as the loop body classifies it. -/
inductive LineItem where
  | empty
  | malformed
  | msg (req : JSONRPCRequest)

/-- How the input stream ends once the lines are exhausted. -/
inductive StreamEnd where
  | eof
  | readErr (e : String)

/-- The error value Server.Run returns: nil on end of input, the
context error on cancellation, or the wrapped scanner error. -/
inductive RunOutcome where
  | ok
  | cancelled
  | readFail (e : String)
deriving DecidableEq

/-- Whether the cancellation context is done at iteration k. -/
def ctxDone : Option Nat → Nat → Bool
  | none, _ => false
  | some n, k => n ≤ k

/-- The outcome Server.Run produces when it drains the whole stream:
nil on end of input, the wrapped error on a read failure. -/
def StreamEnd.outcome : StreamEnd → RunOutcome
  | .eof => .ok
  | .readErr e => .readFail (("error reading from stdin: ") ++ e)

/-- Server.Run from the source: per iteration, first the select checks
cancellation, then one line is scanned; an empty line is skipped, an
unparseable line emits a -32700 response with a nil id, a decoded
message is dispatched and its response, when there is one, is written.
Returns the final server state, the written responses in order, and
the returned error. -/
def Server.run : Server → Option Nat → Nat → List LineItem → StreamEnd →
    Server × List JSONRPCResponse × RunOutcome
  | s, cancelAt, k, [], ending =>
      if ctxDone cancelAt k then (s, [], .cancelled)
      else (s, [], ending.outcome)
  | s, cancelAt, k, line :: rest, ending =>
      if ctxDone cancelAt k then (s, [], .cancelled)
      else
        match line with
        | .empty => Server.run s cancelAt (k + 1) rest ending
        | .malformed =>
            let r := Server.run s cancelAt (k + 1) rest ending
            (r.1, s.errorResponse none (-32700) ("Parse error") none :: r.2.1, r.2.2)
        | .msg req =>
            let d := s.handleRequest req
            let r := Server.run d.1 cancelAt (k + 1) rest ending
            match d.2 with
            | some resp => (r.1, resp :: r.2.1, r.2.2)
            | none => (r.1, r.2.1, r.2.2)

/- The HTTP transport (part of the source handling POST bodies).  The
HTTP layer itself (routing, body reading, JSON parsing) is external;
the model covers handleSingleRequest and handleBatchRequest, which
receive already-decoded messages and produce a status code and an
optional JSON body. -/

/-- Server.handleSingleRequest from the source: dispatch, then 202
with no body when the id is absent (the dispatch side effects still
happened); otherwise 200 with the response when the dispatcher
produced one, and an empty 200 body when it did not. -/
def Server.handleSingleRequest (s : Server) (req : JSONRPCRequest) :
    Server × Nat × Option JSONRPCResponse :=
  let d := s.handleRequest req
  if req.id.isNone then (d.1, 202, none)
  else (d.1, 200, d.2)

/-- The collection loop of Server.handleBatchRequest from the source:
dispatch each element in order, remember whether any element carried
an id, and keep the responses of id-bearing elements for which the
dispatcher produced one. -/
def Server.batchLoop (s : Server) : List JSONRPCRequest →
    Server × List JSONRPCResponse × Bool
  | [] => (s, [], false)
  | req :: rest =>
      let d := s.handleRequest req
      let r := Server.batchLoop d.1 rest
      if req.id.isSome then
        match d.2 with
        | some resp => (r.1, resp :: r.2.1, true)
        | none => (r.1, r.2.1, true)
      else (r.1, r.2.1, r.2.2)

/-- Server.handleBatchRequest from the source: run the loop; when no
element carried an id answer 202 with no body, otherwise 200 with the
collected array. -/
def Server.handleBatchRequest (s : Server) (batch : List JSONRPCRequest) :
    Server × Nat × Option (List JSONRPCResponse) :=
  let r := Server.batchLoop s batch
  if !r.2.2 then (r.1, 202, none)
  else (r.1, 200, some r.2.1)

/- The default handler a prompt definition yields
(PromptDefinition.CreateHandler from the source). -/

/-- ArgumentDefinition from the source. -/
structure ArgumentDefinition where
  name : String
  description : String
  required : Bool

/-- PromptDefinition from the source. -/
structure PromptDefinition where
  name : String
  description : String
  arguments : List ArgumentDefinition
  content : String

/-- PromptDefinition.ToPrompt from the source. -/
def PromptDefinition.toPrompt (d : PromptDefinition) : Prompt :=
  { name := d.name, description := d.description,
    arguments := d.arguments.map (fun a =>
      { name := a.name, description := a.description, required := a.required }) }

/-- Model of Go strings.ReplaceAll on character lists: scan left to
right and replace each non-overlapping occurrence of the pattern.
The fuel argument (instantiated with the input length) only makes the
recursion structural; one unit is spent per consumed character. -/
def replaceAllList : Nat → List Char → List Char → List Char → List Char
  | 0, s, _, _ => s
  | _ + 1, [], _, _ => []
  | fuel + 1, c :: rest, pat, rep =>
      if pat.isPrefixOf (c :: rest) then
        rep ++ replaceAllList fuel (List.drop pat.length (c :: rest)) pat rep
      else
        c :: replaceAllList fuel rest pat rep

/-- Model of Go strings.ReplaceAll.  The pattern is never empty at the
call sites of this code (it is a doubly-braced placeholder), so the
empty-pattern case keeps the input unchanged. -/
def replaceAll (s pat rep : String) : String :=
  if pat.data.isEmpty then s
  else String.mk (replaceAllList s.data.length s.data pat.data rep.data)

/-- The substitution loop of CreateHandler: for each supplied argument
in turn, replace every occurrence of its doubly-braced placeholder
with its value (Go strings.ReplaceAll).  The Go loop ranges over a map
in unspecified order; the model fixes the association-list order. -/
def substituteArgs (content : String) (args : List (String × String)) : String :=
  args.foldl
    (fun c kv => replaceAll c (("\x7b\x7b") ++ kv.1 ++ ("\x7d\x7d")) kv.2)
    content

/-- PromptDefinition.CreateHandler from the source: with empty content
the handler fails naming the prompt; otherwise it answers one user
text message holding the substituted content. -/
def PromptDefinition.createHandler (d : PromptDefinition) : PromptHandler :=
  fun args =>
    if d.content = ("") then
      .error (("no content available for prompt: ") ++ d.name)
    else
      .ok { description := d.description,
            messages := [{ role := ("user"),
                           content := { type := ("text"),
                                        text := substituteArgs d.content args } }] }

/- Helper lemmas about the dispatcher. -/

theorem handleInitialize_id (s : Server) (req : JSONRPCRequest) :
    (s.handleInitialize req).id = req.id := by
  unfold Server.handleInitialize
  cases decodeInitializeParamsOpt req.params <;> simp [Server.errorResponse]

theorem handlePromptsGet_id (s : Server) (req : JSONRPCRequest) :
    (s.handlePromptsGet req).id = req.id := by
  unfold Server.handlePromptsGet
  cases hd : decodeGetPromptParamsOpt req.params with
  | error e => simp [Server.errorResponse]
  | ok p =>
      cases he : s.promptRegistry.execute p.name p.arguments <;>
        simp [he, Server.errorResponse]

/-- The first component of handleRequest: only the initialized
notification changes the server, and it only flips the flag. -/
theorem handleRequest_fst (s : Server) (req : JSONRPCRequest) :
    (s.handleRequest req).1 =
      if req.method = ("initialized") then { s with initialized := true } else s := by
  unfold Server.handleRequest
  by_cases h1 : req.method = ("initialize")
  · have hne : ¬ req.method = ("initialized") := by rw [h1]; decide
    simp [h1, hne]
  · by_cases h2 : req.method = ("initialized")
    · simp [h1, h2]
    · by_cases h3 : req.method = ("prompts/list")
      · by_cases hi : s.initialized <;> simp [h1, h2, h3, hi]
      · by_cases h4 : req.method = ("prompts/get")
        · by_cases hi : s.initialized <;> simp [h1, h2, h3, h4, hi]
        · simp [h1, h2, h3, h4]

/-- Every response the dispatcher produces echoes the request id. -/
theorem handleRequest_id (s : Server) (req : JSONRPCRequest) (resp : JSONRPCResponse)
    (h : (s.handleRequest req).2 = some resp) : resp.id = req.id := by
  unfold Server.handleRequest at h
  by_cases h1 : req.method = ("initialize")
  · simp [h1] at h
    rw [← h]
    exact handleInitialize_id s req
  · by_cases h2 : req.method = ("initialized")
    · simp [h1, h2] at h
    · by_cases h3 : req.method = ("prompts/list")
      · by_cases hi : s.initialized <;> simp [h1, h2, h3, hi] at h <;>
          rw [← h] <;> simp [Server.errorResponse, Server.handlePromptsList]
      · by_cases h4 : req.method = ("prompts/get")
        · by_cases hi : s.initialized
          · simp [h1, h2, h3, h4, hi] at h
            rw [← h]
            exact handlePromptsGet_id s req
          · simp [h1, h2, h3, h4, hi] at h
            rw [← h]
            simp [Server.errorResponse]
        · simp [h1, h2, h3, h4] at h
          rw [← h]
          simp [Server.errorResponse]

/-- The dispatcher returns no response exactly for the initialized
notification. -/
theorem handleRequest_none_iff (s : Server) (req : JSONRPCRequest) :
    (s.handleRequest req).2 = none ↔ req.method = ("initialized") := by
  unfold Server.handleRequest
  by_cases h1 : req.method = ("initialize")
  · have hne : ¬ req.method = ("initialized") := by rw [h1]; decide
    simp [h1, hne]
  · by_cases h2 : req.method = ("initialized")
    · simp [h1, h2]
    · by_cases h3 : req.method = ("prompts/list")
      · by_cases hi : s.initialized <;> simp [h1, h2, h3, hi]
      · by_cases h4 : req.method = ("prompts/get")
        · by_cases hi : s.initialized <;> simp [h1, h2, h3, h4, hi]
        · simp [h1, h2, h3, h4]

/-- Per-step effect on the initialized flag. -/
theorem handleRequest_initialized (s : Server) (req : JSONRPCRequest) :
    ((s.handleRequest req).1).initialized
      = (s.initialized || (req.method == ("initialized"))) := by
  rw [handleRequest_fst]
  by_cases h : req.method = ("initialized") <;> simp [h]

/-- The initialized flag after a message sequence: the old flag, or
some message had method initialized. -/
theorem dispatchAll_initialized (s : Server) (msgs : List JSONRPCRequest) :
    (s.dispatchAll msgs).initialized
      = (s.initialized || msgs.any (fun r => r.method == ("initialized"))) := by
  induction msgs generalizing s with
  | nil => simp [Server.dispatchAll]
  | cons r rest ih =>
      rw [Server.dispatchAll, ih, handleRequest_initialized]
      simp [List.any_cons, Bool.or_assoc]

/-- Dispatch preserves the configured name, version and protocol
version. -/
theorem dispatchAll_config (s : Server) (msgs : List JSONRPCRequest) :
    (s.dispatchAll msgs).name = s.name ∧
    (s.dispatchAll msgs).version = s.version ∧
    (s.dispatchAll msgs).protocolVersion = s.protocolVersion := by
  induction msgs generalizing s with
  | nil => simp [Server.dispatchAll]
  | cons r rest ih =>
      rw [Server.dispatchAll]
      have h := ih (s.handleRequest r).1
      rw [handleRequest_fst] at h
      rw [handleRequest_fst]
      by_cases hm : r.method = ("initialized") <;> simp [hm] at h ⊢ <;> exact h

/-- The hasRequests flag of the batch loop: some element carried an
id. -/
theorem batchLoop_hasRequests (s : Server) (batch : List JSONRPCRequest) :
    (s.batchLoop batch).2.2 = batch.any (fun r => r.id.isSome) := by
  induction batch generalizing s with
  | nil => simp [Server.batchLoop]
  | cons req rest ih =>
      by_cases hid : req.id.isSome
      · cases hresp : (s.handleRequest req).2 <;>
          simp [Server.batchLoop, hid, hresp, List.any_cons]
      · simp [Server.batchLoop, hid, ih, List.any_cons]

/-- The ids of the collected batch responses are exactly the ids of
the id-bearing elements whose method is not the initialized
notification, in input order. -/
theorem batchLoop_ids (s : Server) (batch : List JSONRPCRequest) :
    ((s.batchLoop batch).2.1).map JSONRPCResponse.id
      = (batch.filter
          (fun r => r.id.isSome && !(r.method == ("initialized")))).map
            JSONRPCRequest.id := by
  induction batch generalizing s with
  | nil => simp [Server.batchLoop]
  | cons req rest ih =>
      by_cases hid : req.id.isSome
      · cases hresp : (s.handleRequest req).2 with
        | none =>
            have hm : req.method = ("initialized") :=
              (handleRequest_none_iff s req).1 hresp
            simp [Server.batchLoop, hid, hresp, hm, ih, List.filter_cons]
        | some resp =>
            have hm : ¬ req.method = ("initialized") := by
              intro hmm
              have hn := (handleRequest_none_iff s req).2 hmm
              rw [hn] at hresp
              cases hresp
            have hidr : resp.id = req.id := handleRequest_id s req resp hresp
            simp [Server.batchLoop, hid, hresp, hm, ih, List.filter_cons, hidr]
      · simp [Server.batchLoop, hid, ih, List.filter_cons]

/-- With no cancellation, the loop outcome is decided by how the
stream ends. -/
theorem run_none_outcome (lines : List LineItem) :
    ∀ (s : Server) (k : Nat) (ending : StreamEnd),
    (Server.run s none k lines ending).2.2 = ending.outcome := by
  induction lines with
  | nil =>
      intro s k ending
      simp [Server.run, ctxDone]
  | cons line rest ih =>
      intro s k ending
      cases line with
      | empty => simp [Server.run, ctxDone, ih]
      | malformed => simp [Server.run, ctxDone, ih]
      | msg req =>
          cases hresp : (s.handleRequest req).2 <;>
            simp [Server.run, ctxDone, ih, hresp]

/-- With a cancellation point, the loop outcome is cancelled exactly
when the point falls within the iterations the stream admits, and is
otherwise decided by how the stream ends. -/
theorem run_cancel_outcome (lines : List LineItem) :
    ∀ (s : Server) (n k : Nat) (ending : StreamEnd),
    (Server.run s (some n) k lines ending).2.2
      = if n ≤ k + lines.length then RunOutcome.cancelled else ending.outcome := by
  induction lines with
  | nil =>
      intro s n k ending
      by_cases h : n ≤ k <;> simp [Server.run, ctxDone, h]
  | cons line rest ih =>
      intro s n k ending
      by_cases h : n ≤ k
      · have h2 : n ≤ k + (rest.length + 1) := by omega
        cases line <;> simp [Server.run, ctxDone, h, h2]
      · have harith : k + 1 + rest.length = k + (rest.length + 1) := by omega
        cases line with
        | empty => simp [Server.run, ctxDone, h, ih, List.length_cons, harith]
        | malformed => simp [Server.run, ctxDone, h, ih, List.length_cons, harith]
        | msg req =>
            cases hresp : (s.handleRequest req).2 <;>
              simp [Server.run, ctxDone, h, ih, hresp, List.length_cons, harith]

/-- With no cancellation the loop never reads the iteration index. -/
theorem run_none_step (lines : List LineItem) :
    ∀ (s : Server) (k j : Nat) (ending : StreamEnd),
    Server.run s none k lines ending = Server.run s none j lines ending := by
  induction lines with
  | nil =>
      intro s k j ending
      simp [Server.run, ctxDone]
  | cons line rest ih =>
      intro s k j ending
      cases line with
      | empty =>
          simp only [Server.run, ctxDone, Bool.false_eq_true, if_false]
          exact ih s (k + 1) (j + 1) ending
      | malformed =>
          simp only [Server.run, ctxDone, Bool.false_eq_true, if_false]
          rw [ih s (k + 1) (j + 1) ending]
      | msg req =>
          simp only [Server.run, ctxDone, Bool.false_eq_true, if_false]
          rw [ih (s.handleRequest req).1 (k + 1) (j + 1) ending]

/-- Pointwise relation between the all-notifications test and the
some-id test on a batch. -/
theorem all_isNone_eq_not_any (batch : List JSONRPCRequest) :
    batch.all (fun r => r.id.isNone)
      = !(batch.any (fun r => r.id.isSome)) := by
  induction batch with
  | nil => rfl
  | cons r rest ih => cases hr : r.id <;> simp [hr, ih]

/- Claim theorems. -/

/-- C1: the claim says a message with an absent id never produces a
response on any transport, even for an invalid method.  The code
violates this on the line transport: the dispatcher builds an error
response for an unknown method without consulting the id, and the
stdio loop writes every response the dispatcher hands back.  At the
failing input — a single id-less line with method nosuch — the loop
emits one -32601 response with a nil id. -/
theorem c1_stdio_notification_gets_response :
    (Server.run (newServer ("srv") ("1.0")) none 0
        [LineItem.msg { jsonrpc := ("2.0"), id := none,
                        method := ("nosuch"), params := none }]
        StreamEnd.eof).2.1
      = [{ jsonrpc := ("2.0"), id := none, result := none,
           error := some { code := -32601, message := ("Method not found"),
                           data := none } }] := by
  rfl

/-- C2 counterexample: the claim says the flag turns true only after
initialize was successfully called and the initialized notification
was sent.  Dispatching the bare initialized notification — a history
with no initialize call at all — already sets the flag. -/
theorem c2_counterexample :
    ((newServer ("srv") ("1.0")).dispatchAll
        [{ jsonrpc := ("2.0"), id := none, method := ("initialized"),
           params := none }]).initialized = true
    ∧ ([({ jsonrpc := ("2.0"), id := none, method := ("initialized"),
           params := none } : JSONRPCRequest)].all
         (fun r => r.method != ("initialize"))) = true := by
  exact ⟨rfl, rfl⟩

/-- C2 (amended): the initialized flag starts false and, over any
dispatched message sequence, is true exactly when some message of the
sequence carried the method initialized — independent of whether
initialize was ever called.  In particular it never transitions back:
any extension of a sequence containing an initialized notification
still contains one. -/
theorem c2_amended_flag_characterization (name version : String) :
    (newServer name version).initialized = false
    ∧ ∀ msgs : List JSONRPCRequest,
        ((newServer name version).dispatchAll msgs).initialized
          = msgs.any (fun r => r.method == ("initialized")) := by
  refine ⟨rfl, fun msgs => ?_⟩
  rw [dispatchAll_initialized]
  simp [newServer]

/-- C3: in every state reached by a history whose messages all avoid
the method initialized, dispatching prompts/list or prompts/get with a
present id yields an error response with code -32002. -/
theorem c3_gated_before_initialized (name version : String)
    (msgs : List JSONRPCRequest)
    (hh : msgs.all (fun r => r.method != ("initialized")) = true)
    (req : JSONRPCRequest) (i : JsonValue)
    (hm : req.method = ("prompts/list") ∨ req.method = ("prompts/get"))
    (hid : req.id = some i) :
    (((newServer name version).dispatchAll msgs).handleRequest req).2
      = some { jsonrpc := ("2.0"), id := some i, result := none,
               error := some { code := -32002,
                               message := ("Server not initialized"),
                               data := none } } := by
  have hany : msgs.any (fun r => r.method == ("initialized")) = false := by
    rw [List.any_eq_false]
    intro r hr
    have h := List.all_eq_true.mp hh r hr
    simpa using h
  have hflag : ((newServer name version).dispatchAll msgs).initialized = false := by
    rw [dispatchAll_initialized, hany]
    simp [newServer]
  cases hm with
  | inl h =>
      have h1 : ¬ req.method = ("initialize") := by rw [h]; decide
      have h2 : ¬ req.method = ("initialized") := by rw [h]; decide
      simp [Server.handleRequest, h1, h2, h, hflag, hid, Server.errorResponse]
  | inr h =>
      have h1 : ¬ req.method = ("initialize") := by rw [h]; decide
      have h2 : ¬ req.method = ("initialized") := by rw [h]; decide
      have h3 : ¬ req.method = ("prompts/list") := by rw [h]; decide
      simp [Server.handleRequest, h1, h2, h3, h, hflag, hid, Server.errorResponse]

theorem c3_witness :
    (((newServer ("srv") ("1.0")).dispatchAll
        [{ jsonrpc := ("2.0"), id := some (JsonValue.str ("0")),
           method := ("initialize"), params := none }]).handleRequest
        { jsonrpc := ("2.0"), id := some (JsonValue.str ("1")),
          method := ("prompts/list"), params := none }).2
      = some { jsonrpc := ("2.0"), id := some (JsonValue.str ("1")),
               result := none,
               error := some { code := -32002,
                               message := ("Server not initialized"),
                               data := none } } :=
  c3_gated_before_initialized ("srv") ("1.0")
    [{ jsonrpc := ("2.0"), id := some (JsonValue.str ("0")),
       method := ("initialize"), params := none }]
    (by rfl)
    { jsonrpc := ("2.0"), id := some (JsonValue.str ("1")),
      method := ("prompts/list"), params := none }
    (JsonValue.str ("1")) (Or.inl rfl) rfl

/-- C4 counterexample: the claim says the underlying failure message
rides in the error data field.  At a concrete failing prompts/get the
code puts the message in the message field and leaves data nil, so the
data field does not carry it. -/
theorem c4_counterexample :
    (((newServer ("srv") ("1.0")).dispatchAll
        [{ jsonrpc := ("2.0"), id := none, method := ("initialized"),
           params := none }]).handleRequest
        { jsonrpc := ("2.0"), id := some (JsonValue.str ("7")),
          method := ("prompts/get"),
          params := some (JsonValue.obj [(("name"), JsonValue.str ("x"))]) }).2
      = some { jsonrpc := ("2.0"), id := some (JsonValue.str ("7")),
               result := none,
               error := some { code := -32603,
                               message := ("prompt not found: x"),
                               data := none } }
    ∧ (none : Option JsonValue) ≠ some (JsonValue.str ("prompt not found: x")) := by
  refine ⟨by rfl, ?_⟩
  intro h
  cases h

/-- C4 (amended): for every prompts/get dispatched in the initialized
state whose registry execution fails, the dispatcher returns an error
response with code -32603 carrying the failure message in the error
message field, with the data field nil. -/
theorem c4_amended_internal_error_message (s : Server) (req : JSONRPCRequest)
    (p : GetPromptParams) (e : String)
    (hinit : s.initialized = true)
    (hm : req.method = ("prompts/get"))
    (hp : decodeGetPromptParamsOpt req.params = .ok p)
    (hex : s.promptRegistry.execute p.name p.arguments = .error e) :
    (s.handleRequest req).2
      = some { jsonrpc := ("2.0"), id := req.id, result := none,
               error := some { code := -32603, message := e, data := none } } := by
  have h1 : ¬ req.method = ("initialize") := by rw [hm]; decide
  have h2 : ¬ req.method = ("initialized") := by rw [hm]; decide
  have h3 : ¬ req.method = ("prompts/list") := by rw [hm]; decide
  simp [Server.handleRequest, h1, h2, h3, hm, hinit,
        Server.handlePromptsGet, hp, hex, Server.errorResponse]

theorem c4_witness :
    (((newServer ("srv") ("1.0")).dispatchAll
        [{ jsonrpc := ("2.0"), id := none, method := ("initialized"),
           params := none }]).handleRequest
        { jsonrpc := ("2.0"), id := some (JsonValue.str ("5")),
          method := ("prompts/get"), params := none }).2
      = some { jsonrpc := ("2.0"), id := some (JsonValue.str ("5")),
               result := none,
               error := some { code := -32603,
                               message := ("prompt not found: "),
                               data := none } } :=
  c4_amended_internal_error_message
    ((newServer ("srv") ("1.0")).dispatchAll
      [{ jsonrpc := ("2.0"), id := none, method := ("initialized"),
         params := none }])
    { jsonrpc := ("2.0"), id := some (JsonValue.str ("5")),
      method := ("prompts/get"), params := none }
    { name := (""), arguments := [] } ("prompt not found: ")
    (by rfl) rfl (by rfl) (by rfl)

/-- C5 counterexample: the claim says a 200 batch reply holds exactly
one response per id-bearing element.  A batch whose single element
carries an id but has method initialized is answered 200 with an empty
array: one id-bearing element, zero responses. -/
theorem c5_counterexample :
    ((newServer ("srv") ("1.0")).handleBatchRequest
        [{ jsonrpc := ("2.0"), id := some (JsonValue.str ("1")),
           method := ("initialized"), params := none }]).2
      = (200, some [])
    ∧ ([({ jsonrpc := ("2.0"), id := some (JsonValue.str ("1")),
           method := ("initialized"), params := none } : JSONRPCRequest)].all
         (fun r => r.id.isSome)) = true := by
  exact ⟨rfl, rfl⟩

/-- C5 (amended): every batch element is dispatched in array order; if
no element carries an id the reply is 202 with an empty body;
otherwise the reply is 200 with a JSON array holding, in the relative
order of the input, one response for each id-bearing element whose
method is not initialized — notifications and id-bearing initialized
messages contribute no entry. -/
theorem c5_amended_batch (s : Server) (batch : List JSONRPCRequest) :
    ((s.handleBatchRequest batch).2.1
        = if batch.any (fun r => r.id.isSome) then 200 else 202)
    ∧ ((s.handleBatchRequest batch).2.2 = none
        ↔ batch.all (fun r => r.id.isNone) = true)
    ∧ (((s.handleBatchRequest batch).2.2.getD []).map JSONRPCResponse.id
        = (batch.filter
            (fun r => r.id.isSome && !(r.method == ("initialized")))).map
              JSONRPCRequest.id) := by
  have hA := batchLoop_hasRequests s batch
  have hI := batchLoop_ids s batch
  have hall := all_isNone_eq_not_any batch
  by_cases h : batch.any (fun r => r.id.isSome) = true
  · refine ⟨?_, ?_, ?_⟩
    · simp [Server.handleBatchRequest, hA, h]
    · simp [Server.handleBatchRequest, hA, h, hall]
    · simp [Server.handleBatchRequest, hA, h]
      exact hI
  · have h0 : batch.any (fun r => r.id.isSome) = false := by
      cases hx : batch.any (fun r => r.id.isSome)
      · rfl
      · exact absurd hx h
    have hfil : batch.filter
        (fun r => r.id.isSome && !(r.method == ("initialized"))) = [] := by
      rw [List.filter_eq_nil_iff]
      intro r hr
      have : r.id.isSome = false := by
        have := List.any_eq_false.mp h0 r hr  -- membership order check
        simpa using this
      simp [this]
    refine ⟨?_, ?_, ?_⟩
    · simp [Server.handleBatchRequest, hA, h0]
    · simp [Server.handleBatchRequest, hA, h0, hall]
    · simp [Server.handleBatchRequest, hA, h0, hfil]

/-- C6 counterexample: the claim says the loop exits without error on
cancellation.  With the context cancelled from the start the loop
returns the context error, which is not the nil outcome. -/
theorem c6_counterexample :
    (Server.run (newServer ("srv") ("1.0")) (some 0) 0 [] StreamEnd.eof).2.2
      = RunOutcome.cancelled
    ∧ RunOutcome.cancelled ≠ RunOutcome.ok := by
  exact ⟨rfl, by decide⟩

/-- C6 (amended): the loop terminates on every input (it is a total
function of the stream); its outcome is the context error exactly when
the cancellation point falls within the iterations the stream admits;
with no cancellation, end of stream returns the nil outcome and a read
failure other than end-of-stream returns that error, wrapped, to the
caller. -/
theorem c6_amended_termination (s : Server) (k : Nat) (lines : List LineItem)
    (ending : StreamEnd) :
    (∀ n, (Server.run s (some n) k lines ending).2.2
        = if n ≤ k + lines.length then RunOutcome.cancelled
          else ending.outcome)
    ∧ ((Server.run s none k lines ending).2.2 = ending.outcome)
    ∧ (∀ e, (StreamEnd.readErr e).outcome
        = RunOutcome.readFail (("error reading from stdin: ") ++ e))
    ∧ (StreamEnd.eof.outcome = RunOutcome.ok) := by
  exact ⟨fun n => run_cancel_outcome lines s n k ending,
         run_none_outcome lines s k ending,
         fun e => rfl, rfl⟩

/-- C7: every initialize request with absent or well-formed params,
dispatched in any state the server reaches from its construction,
returns the fixed protocol version 2025-03-26, a prompts capability
and the configured server name and version, and leaves the state
unchanged — the reply does not depend on the client-requested
protocol version. -/
theorem c7_initialize_result (name version : String)
    (msgs : List JSONRPCRequest) (req : JSONRPCRequest)
    (hm : req.method = ("initialize"))
    (hp : ∃ q, decodeInitializeParamsOpt req.params = .ok q) :
    ((newServer name version).dispatchAll msgs).handleRequest req
      = ((newServer name version).dispatchAll msgs,
         some { jsonrpc := ("2.0"), id := req.id,
                result := some (RPCResult.initRes
                  { protocolVersion := ("2025-03-26"),
                    capabilities := { prompts := some { listChanged := false },
                                      tools := none },
                    serverInfo := { name := name, version := version } }),
                error := none }) := by
  obtain ⟨q, hq⟩ := hp
  have hcfg := dispatchAll_config (newServer name version) msgs
  have hn : ((newServer name version).dispatchAll msgs).name = name := by
    rw [hcfg.1]; rfl
  have hv : ((newServer name version).dispatchAll msgs).version = version := by
    rw [hcfg.2.1]; rfl
  have hpv : ((newServer name version).dispatchAll msgs).protocolVersion
      = ("2025-03-26") := by
    rw [hcfg.2.2]; rfl
  simp [Server.handleRequest, hm, Server.handleInitialize, hq, hn, hv, hpv]

theorem c7_witness :
    ((newServer ("srv") ("1.0")).dispatchAll []).handleRequest
        { jsonrpc := ("2.0"), id := some (JsonValue.str ("1")),
          method := ("initialize"),
          params := some (JsonValue.obj
            [(("protocolVersion"), JsonValue.str ("2024-01-01")),
             (("capabilities"), JsonValue.obj []),
             (("clientInfo"), JsonValue.obj
               [(("name"), JsonValue.str ("x")),
                (("version"), JsonValue.str ("1"))])]) }
      = ((newServer ("srv") ("1.0")).dispatchAll [],
         some { jsonrpc := ("2.0"), id := some (JsonValue.str ("1")),
                result := some (RPCResult.initRes
                  { protocolVersion := ("2025-03-26"),
                    capabilities := { prompts := some { listChanged := false },
                                      tools := none },
                    serverInfo := { name := ("srv"), version := ("1.0") } }),
                error := none }) :=
  c7_initialize_result ("srv") ("1.0") []
    { jsonrpc := ("2.0"), id := some (JsonValue.str ("1")),
      method := ("initialize"),
      params := some (JsonValue.obj
        [(("protocolVersion"), JsonValue.str ("2024-01-01")),
         (("capabilities"), JsonValue.obj []),
         (("clientInfo"), JsonValue.obj
           [(("name"), JsonValue.str ("x")),
            (("version"), JsonValue.str ("1"))])]) }
    rfl
    ⟨{ protocolVersion := ("2024-01-01"),
       capabilities := { roots := none, sampling := none },
       clientInfo := { name := ("x"), version := ("1") } }, by rfl⟩

/-- C8: the default handler of a definition with non-empty content
answers one user text message whose text is the content with, for each
supplied argument in turn, every occurrence of its doubly-braced
placeholder replaced by the value — arguments absent from the map
leave their placeholders untouched, since only supplied names drive a
replacement; with empty content the handler fails naming the
prompt. -/
theorem c8_default_handler (d : PromptDefinition) (args : List (String × String)) :
    (d.content = ("") →
      d.createHandler args
        = .error (("no content available for prompt: ") ++ d.name))
    ∧ (¬ d.content = ("") →
      d.createHandler args
        = .ok { description := d.description,
                messages := [{ role := ("user"),
                               content := { type := ("text"),
                                            text := substituteArgs d.content args } }] }) := by
  constructor <;> intro h <;> simp [PromptDefinition.createHandler, h]

theorem c8_witness :
    (PromptDefinition.createHandler
        { name := ("greeting"), description := ("Greeting prompt"),
          arguments := [],
          content := ("Hello, \x7b\x7bname\x7d\x7d! From \x7b\x7bplace\x7d\x7d.") }
        [(("name"), ("Alice"))]
      = .ok { description := ("Greeting prompt"),
              messages := [{ role := ("user"),
                             content := { type := ("text"),
                                          text := ("Hello, Alice! From \x7b\x7bplace\x7d\x7d.") } }] })
    ∧ (PromptDefinition.createHandler
        { name := ("empty"), description := (""), arguments := [],
          content := ("") } []
      = .error (("no content available for prompt: empty"))) := by
  constructor
  · have h := (c8_default_handler
        { name := ("greeting"), description := ("Greeting prompt"),
          arguments := [],
          content := ("Hello, \x7b\x7bname\x7d\x7d! From \x7b\x7bplace\x7d\x7d.") }
        [(("name"), ("Alice"))]).2 (by decide)
    rw [h]
    rfl
  · have h := (c8_default_handler
        { name := ("empty"), description := (""), arguments := [],
          content := ("") } []).1 rfl
    rw [h]
    rfl

/-- C9: in the initialized state, a prompts/get request whose params
field is entirely absent is not rejected with -32602: the zero-valued
params reach Registry.Execute with the empty string as name and an
empty argument map, and — the empty name being unregistered — the
reply is the -32603 error whose message is the not-found text for the
empty name. -/
theorem c9_absent_params_promptsget (s : Server) (i : JsonValue)
    (hinit : s.initialized = true)
    (hnone : s.promptRegistry.handlers.lookup ("") = none) :
    (s.handleRequest
        { jsonrpc := ("2.0"), id := some i, method := ("prompts/get"),
          params := none }).2
      = some { jsonrpc := ("2.0"), id := some i, result := none,
               error := some { code := -32603,
                               message := ("prompt not found: "),
                               data := none } } := by
  simp [Server.handleRequest, Server.handlePromptsGet, decodeGetPromptParamsOpt,
        PromptRegistry.execute, hinit, hnone, Server.errorResponse]

theorem c9_witness :
    (((newServer ("srv") ("1.0")).dispatchAll
        [{ jsonrpc := ("2.0"), id := none, method := ("initialized"),
           params := none }]).handleRequest
        { jsonrpc := ("2.0"), id := some (JsonValue.str ("3")),
          method := ("prompts/get"), params := none }).2
      = some { jsonrpc := ("2.0"), id := some (JsonValue.str ("3")),
               result := none,
               error := some { code := -32603,
                               message := ("prompt not found: "),
                               data := none } } :=
  c9_absent_params_promptsget
    ((newServer ("srv") ("1.0")).dispatchAll
      [{ jsonrpc := ("2.0"), id := none, method := ("initialized"),
         params := none }])
    (JsonValue.str ("3")) (by rfl) (by rfl)

/-- C10: on the line transport an empty input line is silently
skipped: the whole remaining run — final state, written output, and
outcome — is exactly the run without that line, so no -32700 response
is emitted, the session state is untouched, and the loop continues. -/
theorem c10_empty_line_skipped (s : Server) (k : Nat) (lines : List LineItem)
    (ending : StreamEnd) :
    Server.run s none k (LineItem.empty :: lines) ending
      = Server.run s none k lines ending := by
  have h1 : Server.run s none k (LineItem.empty :: lines) ending
      = Server.run s none (k + 1) lines ending := by
    simp [Server.run, ctxDone]
  rw [h1]
  exact run_none_step lines s (k + 1) k ending

end MCP
